import Mathlib

/-!
Verification of the calmdown task subsystem.

This file gives a shallow embedding of the task marker parser
(src/web/tasks/taskModel.ts and tasks.ts), the toggle operation
(src/web/tasks/taskNavigator.ts), the date utilities (dateFormatter),
the rollover filter and source marking (src/web/tasks/taskRollover.ts)
and the scan cache (src/web/tasks/taskScanner.ts), and proves or refutes
the spec claims about them.

Strings are modelled as lists of characters; the JavaScript regular
expressions used by the code are deterministic for these patterns
(each digit group is followed by a character that is not a digit, so
greedy matching with backtracking equals maximal-run matching), and the
embedding implements that leftmost maximal-run search directly.
-/

namespace Calmdown

/-- Model of the regex class backslash-d applied to a character. -/
def isDigitChar (c : Char) : Bool := 48 ≤ c.toNat && c.toNat ≤ 57

/-- Whitespace as trimmed by JavaScript trim, restricted to the ASCII
whitespace that can occur in the lines handled here. -/
def isWspChar (c : Char) : Bool :=
  (c == ' ') || (c == '\t') || (c == '\n') || (c == '\r')

/-- Model of JavaScript String.prototype.trim. -/
def trimChars (cs : List Char) : List Char :=
  ((cs.dropWhile isWspChar).reverse.dropWhile isWspChar).reverse

/-- Value of a digit string, as computed by parseInt on an all-digit match. -/
def digitsVal (cs : List Char) : Nat :=
  cs.foldl (fun a c => a * 10 + (c.toNat - 48)) 0

/-- Whether pat occurs as a contiguous subsequence of a character list. -/
def containsSeq (pat : List Char) : List Char → Bool
  | [] => pat.isEmpty
  | c :: cs => pat.isPrefixOf (c :: cs) || containsSeq pat cs

/-- The keyword of a TODO marker. -/
def todoChars : List Char := ['T', 'O', 'D', 'O']

/-- The keyword of a COMPLETE marker. -/
def completeChars : List Char := ['C', 'O', 'M', 'P', 'L', 'E', 'T', 'E']

/-- The literal head of a marker for a given keyword:
the characters of "-=KW " (dash, equals, keyword, space). -/
def markerLit (kw : List Char) : List Char := '-' :: '=' :: (kw ++ [' '])

/-- Match the three digit groups and the closing delimiter of the marker
regex against the characters that follow the marker literal, returning
the captures (priority digits, difficulty digits, date digits, rest of
line).  This is the deterministic reading of
(backslash-d+) space (backslash-d+) space (backslash-d+) equals dash (dot-star). -/
def matchFields (cs : List Char) : Option (List Char × List Char × List Char × List Char) :=
  let p := cs.takeWhile isDigitChar
  let r1 := cs.dropWhile isDigitChar
  if p = [] then none else
  match r1 with
  | ' ' :: r2 =>
    let d := r2.takeWhile isDigitChar
    let r3 := r2.dropWhile isDigitChar
    if d = [] then none else
    match r3 with
    | ' ' :: r4 =>
      let dt := r4.takeWhile isDigitChar
      let r5 := r4.dropWhile isDigitChar
      if dt = [] then none else
      match r5 with
      | '=' :: '-' :: text => some (p, d, dt, text)
      | _ => none
    | _ => none
  | _ => none

/-- Attempt the whole marker regex anchored at the head of cs. -/
def matchAt (kw : List Char) (cs : List Char) : Option (List Char × List Char × List Char × List Char) :=
  if (markerLit kw).isPrefixOf cs then matchFields (cs.drop (markerLit kw).length) else none

/-- Leftmost match of the marker regex anywhere in the line, exactly as
String.prototype.match with an unanchored regex. -/
def findMarker (kw : List Char) : List Char → Option (List Char × List Char × List Char × List Char)
  | [] => none
  | c :: cs =>
    match matchAt kw (c :: cs) with
    | some r => some r
    | none => findMarker kw cs

/-- Task status as stored by the parser (ROLL lines are ignored by it). -/
inductive TaskStatus where
  | TODO
  | COMPLETE
deriving DecidableEq, Repr

/-- One parsed marker occurrence, as in taskModel.ts. -/
structure Task where
  text : String
  priority : Nat
  difficulty : Nat
  dueDate : String
  filePath : String
  line : Int
  status : TaskStatus
deriving DecidableEq, Repr

/-- parseTask from src/web/tasks/tasks.ts (and taskModel.ts):
try the TODO regex, then the COMPLETE regex, else no task. -/
def parseTask (line : String) (filePath : String) (lineNumber : Int) : Option Task :=
  match findMarker todoChars line.data with
  | some (p, d, dt, text) =>
    some ⟨(trimChars text).asString, digitsVal p, digitsVal d, dt.asString,
          filePath, lineNumber, TaskStatus.TODO⟩
  | none =>
    match findMarker completeChars line.data with
    | some (p, d, dt, text) =>
      some ⟨(trimChars text).asString, digitsVal p, digitsVal d, dt.asString,
            filePath, lineNumber, TaskStatus.COMPLETE⟩
    | none => none

/-- Core of toggleTaskState from src/web/tasks/taskNavigator.ts: one line
of text in, one line out; today is the encoded date stamped on newly
completed or newly created markers. -/
def toggleChars (line : List Char) (today : List Char) : List Char :=
  match findMarker todoChars line with
  | some (p, d, _, text) =>
    markerLit completeChars ++ p ++ ' ' :: d ++ ' ' :: (today ++ '=' :: '-' :: text)
  | none =>
    match findMarker completeChars line with
    | some (p, d, orig, text) =>
      markerLit todoChars ++ p ++ ' ' :: d ++ ' ' :: (orig ++ '=' :: '-' :: text)
    | none =>
      if trimChars line = [] then
        markerLit todoChars ++ '1' :: ' ' :: '1' :: ' ' :: (today ++ ['=', '-'])
      else
        markerLit todoChars ++ '1' :: ' ' :: '1' :: ' ' :: (today ++ '=' :: '-' :: ' ' :: line)

/-- String-level wrapper of the toggle operation. -/
def toggleLine (line : String) (today : String) : String :=
  (toggleChars line.data today.data).asString

/-- Digit-run part of parseInt: value of the maximal leading digit run,
or none (NaN) when there is no leading digit. -/
def jsParseIntDigits (cs : List Char) : Option Int :=
  let ds := cs.takeWhile isDigitChar
  if ds = [] then none else some (Int.ofNat (digitsVal ds))

/-- Model of JavaScript parseInt in base 10: optional whitespace, optional
sign, then the maximal digit run; none models NaN. -/
def jsParseInt (cs : List Char) : Option Int :=
  match cs.dropWhile isWspChar with
  | '-' :: rest => (jsParseIntDigits rest).map (fun n => -n)
  | '+' :: rest => jsParseIntDigits rest
  | rest => jsParseIntDigits rest

/-- Day count of a civil date (year, month in 1..12, day, the day possibly
out of range), counted from the Unix epoch; the standard civil-calendar
day-numbering algorithm, which is how the time value of a JavaScript
Date at local midnight orders dates. -/
def daysFromCivil (y m d : Int) : Int :=
  let yy := if m ≤ 2 then y - 1 else y
  let era := Int.fdiv yy 400
  let yoe := yy - era * 400
  let madj := if m > 2 then m - 3 else m + 9
  let doy := Int.fdiv (153 * madj + 2) 5 + d - 1
  let doe := yoe * 365 + Int.fdiv yoe 4 - Int.fdiv yoe 100 + doy
  era * 146097 + doe - 719468

/-- Day count of new Date(year, monthIndex, day): the JavaScript Date
constructor normalizes an out-of-range zero-based month into the year. -/
def daysOfYMD (y m0 d : Int) : Int :=
  daysFromCivil (y + Int.fdiv m0 12) (Int.emod m0 12 + 1) d

/-- Outcome of parseTaskDate (dateFormatter): err models the thrown
exception for a string whose length is not six, invalid models an
Invalid Date produced from NaN components, valid carries the day count
of the constructed date. -/
inductive DateResult where
  | err
  | invalid
  | valid (days : Int)
deriving DecidableEq, Repr

/-- parseTaskDate from the date formatter: throws unless the string has
exactly six characters, then builds new Date(2000 + yy, mm - 1, dd). -/
def parseTaskDate (dateStr : String) : DateResult :=
  if dateStr.length ≠ 6 then DateResult.err
  else
    let cs := dateStr.data
    match jsParseInt (cs.take 2), jsParseInt ((cs.drop 2).take 2), jsParseInt ((cs.drop 4).take 2) with
    | some yy, some mm, some dd => DateResult.valid (daysOfYMD (2000 + yy) (mm - 1) dd)
    | _, _, _ => DateResult.invalid

/-- The body of the filter predicate of filterPastTasks: a thrown parse
error is caught and yields false; a comparison against an Invalid Date is
false; otherwise the task is kept iff its due date is today or earlier. -/
def taskIsPastDue (dueDate : String) (today : Int) : Bool :=
  match parseTaskDate dueDate with
  | DateResult.valid v => decide (v ≤ today)
  | _ => false

/-- filterPastTasks from src/web/tasks/taskRollover.ts; today is the day
count of the current date at local midnight (the code reads the clock
itself and ignores its second string argument). -/
def filterPastTasks (allTasks : List Task) (today : Int) : List Task :=
  allTasks.filter (fun t => taskIsPastDue t.dueDate today)

/-- The keyword written over TODO when a task is rolled over. -/
def rollKw : List Char := ['R', 'O', 'L', 'L']

/-- Descending-by-line ordering used by the sort in
markOriginalTasksAsMoved (comparator b.line - a.line). -/
def taskLineGE (a b : Task) : Prop := b.line ≤ a.line

instance : DecidableRel taskLineGE :=
  fun a b => inferInstanceAs (Decidable (b.line ≤ a.line))

instance : IsTotal Task taskLineGE := ⟨fun a b => Int.le_total b.line a.line⟩

instance : IsTrans Task taskLineGE := ⟨fun _ _ _ hab hbc => le_trans hbc hab⟩

/-- The sort step of markOriginalTasksAsMoved: tasks of one file ordered
by descending line number (stable, as Array.prototype.sort is). -/
def sortTasksDesc (tasks : List Task) : List Task := List.insertionSort taskLineGE tasks

/-- Model of String.prototype.replace with a non-global pattern: rewrite
the first occurrence of pat, or return the input unchanged. -/
def replaceSeq (pat rep : List Char) : List Char → List Char
  | [] => []
  | c :: cs =>
    if pat.isPrefixOf (c :: cs) then rep ++ (c :: cs).drop pat.length
    else c :: replaceSeq pat rep cs

/-- The line rewrite of markOriginalTasksAsMoved: replace the first
occurrence of the TODO marker literal with the ROLL marker literal. -/
def markMovedLine (s : String) : String :=
  (replaceSeq (markerLit todoChars) (markerLit rollKw) s.data).asString

/-- One loop iteration of markOriginalTasksAsMoved: rewrite the recorded
line when its index lies inside the document, else do nothing. -/
def applyMark (lines : List String) (t : Task) : List String :=
  if 0 ≤ t.line ∧ t.line < (lines.length : Int) then
    lines.set t.line.toNat (markMovedLine (lines.getD t.line.toNat ""))
  else lines

/-- markOriginalTasksAsMoved restricted to one source file: sort the
tasks by descending line number, then rewrite each recorded line.  The
editor edits are all computed against the original document; since the
guard admits one edit per line this equals the sequential fold. -/
def markOriginalTasksInFile (lines : List String) (tasks : List Task) : List String :=
  (sortTasksDesc tasks).foldl applyMark lines

/-- Lookup in a JavaScript Map modelled as an association list. -/
def lookupA (l : List (String × Nat)) (k : String) : Option Nat :=
  match l with
  | [] => none
  | (k₂, v) :: t => if k₂ = k then some v else lookupA t k

/-- Map.set: overwrite the binding for k, or append one. -/
def insertA (l : List (String × Nat)) (k : String) (v : Nat) : List (String × Nat) :=
  match l with
  | [] => [(k, v)]
  | (k₂, v₂) :: t => if k₂ = k then (k, v) :: t else (k₂, v₂) :: insertA t k v

/-- Map.delete. -/
def eraseA (l : List (String × Nat)) (k : String) : List (String × Nat) :=
  l.filter (fun p => !(p.1 == k))

/-- TaskCache from src/web/tasks/taskScanner.ts. -/
structure TaskCache where
  tasks : List Task
  lastScanTime : Nat
  fileVersions : List (String × Nat)
  fileTimestamps : List (String × Nat)
deriving DecidableEq, Repr

/-- State of one enumerated note file: its text lines, document version
and modified time when it is readable, or broken when opening or reading
it throws. -/
inductive FileEntry where
  | ok (lines : List String) (version : Nat) (mtime : Nat)
  | broken
deriving DecidableEq, Repr

/-- The enumerated file tree: paths with their current state, in the
order the file enumeration returns them. -/
abbrev FileSys := List (String × FileEntry)

/-- The mutable state of a TaskScanner (the scanInProgress flag is not
modelled: in this sequential embedding a pass always completes within
one call, which is the no-concurrent-caller case of the claims). -/
structure ScannerState where
  cache : Option TaskCache
deriving DecidableEq, Repr

/-- invalidateFileInCache: drop the saved tasks, version and timestamp
recorded for one file. -/
def invalidateFileInCache (s : ScannerState) (filePath : String) : ScannerState :=
  match s.cache with
  | none => s
  | some c =>
    ⟨some { c with
      tasks := c.tasks.filter (fun t => !(t.filePath == filePath)),
      fileVersions := eraseA c.fileVersions filePath,
      fileTimestamps := eraseA c.fileTimestamps filePath }⟩

/-- shouldRescanFile: a matching recorded version means no rescan; else a
matching recorded modified time refreshes the version and means no
rescan; else the file must be re-parsed. -/
def shouldRescanFile (c : TaskCache) (fp : String) (fileVersion : Nat) (mtime : Nat) :
    Bool × TaskCache :=
  let versionMatches : Bool :=
    match lookupA c.fileVersions fp with
    | some v => v == fileVersion
    | none => false
  if versionMatches then (false, c)
  else
    match lookupA c.fileTimestamps fp with
    | some ts =>
      if ts == mtime then (false, { c with fileVersions := insertA c.fileVersions fp fileVersion })
      else (true, c)
    | none => (true, c)

/-- Parse every line of a document, keeping the marker lines; line
numbers are zero-based as in the scanner loop. -/
def parseLines (lines : List String) (fp : String) : List Task :=
  lines.enum.filterMap (fun pr => parseTask pr.2 fp (Int.ofNat pr.1))

/-- scanFileForTasks: a file that fails to open contributes no tasks and
leaves the cache records untouched (the error is caught); an unchanged
file is served from the cached task list; a changed file is re-parsed
and its version and timestamp records are refreshed.  The third
component counts content re-parses (file reads). -/
def scanFileForTasks (c : TaskCache) (fp : String) (entry : FileEntry) :
    List Task × TaskCache × Nat :=
  match entry with
  | FileEntry.broken => ([], c, 0)
  | FileEntry.ok lines version mtime =>
    let r := shouldRescanFile c fp version mtime
    if r.1 then
      let tasks := parseLines lines fp
      let c₂ := { r.2 with
        fileVersions := insertA r.2.fileVersions fp version,
        fileTimestamps := insertA r.2.fileTimestamps fp mtime }
      (tasks, c₂, 1)
    else
      (r.2.tasks.filter (fun t => t.filePath == fp), r.2, 0)

/-- The reconciliation loop of getOpenTasks: scan each enumerated file in
turn, accumulating its tasks (the inter-batch yields of the code do not
change the sequential result). -/
def reconcileAux (c : TaskCache) (files : FileSys) (acc : List Task) (reads : Nat) :
    List Task × TaskCache × Nat :=
  match files with
  | [] => (acc, c, reads)
  | (fp, entry) :: rest =>
    let r := scanFileForTasks c fp entry
    reconcileAux r.2.1 rest (acc ++ r.1) (reads + r.2.2)

/-- Status filter applied to every task list getOpenTasks returns. -/
def filterTodo (tasks : List Task) : List Task :=
  tasks.filter (fun t => t.status == TaskStatus.TODO)

/-- The full-reconciliation branch of getOpenTasks: start from the
existing cache (or a fresh empty one), scan every enumerated file, then
replace the cached task list wholesale. -/
def runScanPass (s : ScannerState) (now : Nat) (fs : FileSys) :
    List Task × ScannerState × Nat :=
  let c0 :=
    match s.cache with
    | some c => c
    | none => { tasks := [], lastScanTime := now, fileVersions := [], fileTimestamps := [] }
  let r := reconcileAux c0 fs [] 0
  let cNew : TaskCache := { r.2.1 with tasks := r.1, lastScanTime := now }
  (filterTodo r.1, ⟨some cNew⟩, r.2.2)

/-- getOpenTasks: serve the TODO tasks from the cache when it is younger
than the staleness threshold, else run a reconciliation pass.  Returns
the task list, the new scanner state, and the number of file reads. -/
def getOpenTasks (s : ScannerState) (now : Nat) (cacheTimeout : Nat) (fs : FileSys) :
    List Task × ScannerState × Nat :=
  match s.cache with
  | some c =>
    if now - c.lastScanTime < cacheTimeout then (filterTodo c.tasks, s, 0)
    else runScanPass s now fs
  | none => runScanPass s now fs

/-- Decimal digits of a natural number, most significant first, with a
structural fuel argument (any fuel above the number suffices); these are
the digits JavaScript template interpolation writes for a nonnegative
integer. -/
def natToDigitsFuel : Nat → Nat → List Char
  | 0, _ => []
  | fuel + 1, n =>
    if n < 10 then [Nat.digitChar n]
    else natToDigitsFuel fuel (n / 10) ++ [Nat.digitChar (n % 10)]

/-- Decimal representation of a natural number. -/
def natToDigits (n : Nat) : List Char := natToDigitsFuel (n + 1) n

/-- The marker keyword a given parsed status stands for. -/
def stChars : TaskStatus → List Char
  | TaskStatus.TODO => todoChars
  | TaskStatus.COMPLETE => completeChars

/-- Modelled from the spec: the wire format of section 6,
dash equals STATE space priority space difficulty space date equals dash
text.  The repository has no one general emit function (task lines are
produced inline, for example in addTasksToTodaysNote and in
toggleTaskState), so the emitter is taken from the wire-format sentence
of the spec. -/
def emitTask (kw : List Char) (p d : Nat) (date text : List Char) : List Char :=
  markerLit kw ++ natToDigits p ++ ' ' :: natToDigits d ++ ' ' :: (date ++ '=' :: '-' :: text)

/-- Modelled from the claim wording of C5 (the grammar the claim says is
required for a parse): the marker must start the line, the state keyword
is literal, priority and difficulty are digit runs, and the date is
exactly six digits.  Used only to compare the claimed grammar with the
implemented one. -/
def specFieldsExact (cs : List Char) : Bool :=
  let p := cs.takeWhile isDigitChar
  let r1 := cs.dropWhile isDigitChar
  if p = [] then false else
  match r1 with
  | ' ' :: r2 =>
    let d := r2.takeWhile isDigitChar
    let r3 := r2.dropWhile isDigitChar
    if d = [] then false else
    match r3 with
    | ' ' :: r4 =>
      let dt := r4.takeWhile isDigitChar
      let r5 := r4.dropWhile isDigitChar
      if dt.length == 6 then
        match r5 with
        | '=' :: '-' :: _ => true
        | _ => false
      else false
    | _ => false
  | _ => false

/-- Modelled from the claim wording of C5: whether a whole line matches
the strict grammar (marker at line start, state keyword literal, date of
exactly six digits). -/
def specGrammarExact (line : String) : Bool :=
  ((markerLit todoChars).isPrefixOf line.data
      && specFieldsExact (line.data.drop (markerLit todoChars).length))
  || ((markerLit completeChars).isPrefixOf line.data
      && specFieldsExact (line.data.drop (markerLit completeChars).length))
  || ((markerLit ['R', 'O', 'L', 'L', 'E', 'D']).isPrefixOf line.data
      && specFieldsExact (line.data.drop (markerLit ['R', 'O', 'L', 'L', 'E', 'D']).length))

/-- A decomposition witnessing that the marker regex for a keyword
matches somewhere in a line: some position starts with the marker
literal followed by three nonempty digit runs separated by single
spaces and closed by the equals-dash delimiter. -/
def MarkerMatch (kw : List Char) (line : List Char) : Prop :=
  ∃ pre p d dt text,
    line = pre ++ markerLit kw ++ p ++ ' ' :: d ++ ' ' :: (dt ++ '=' :: '-' :: text) ∧
    p ≠ [] ∧ d ≠ [] ∧ dt ≠ [] ∧
    p.all isDigitChar = true ∧ d.all isDigitChar = true ∧ dt.all isDigitChar = true

/-- Example data for claim C1: the spec example line. -/
def exPC1 : List Char := ['2']

/-- Example data for claim C1. -/
def exDC1 : List Char := ['3']

/-- Example data for claim C1: the original due date. -/
def exDateC1 : List Char := ['2', '4', '0', '1', '0', '1']

/-- Example data for claim C1: today as encoded by formatDateForTask. -/
def exTodayC1 : List Char := ['2', '4', '0', '1', '1', '6']

/-- Example data for claim C1: the description with its leading space,
exactly as the fourth capture group of the regex yields it. -/
def exTextC1 : List Char := [' ', 'w', 'r', 'i', 't', 'e', ' ', 's', 'p', 'e', 'c']

/-- The spec example TODO line of C1. -/
def exLineC1 : String := "-=TODO 2 3 240101=- write spec"

/-- What the code produces from one toggle of the C1 line. -/
def exOnceC1 : String := "-=COMPLETE 2 3 240116=- write spec"

/-- What the code produces from a second toggle of the C1 line. -/
def exTwiceC1 : String := "-=TODO 2 3 240116=- write spec"

/-- Todays encoded date for the C1 example. -/
def exTodayStrC1 : String := "240116"

/-- Whether parseTaskDate yields a comparable date (no throw, no
Invalid Date). -/
def dateParses (s : String) : Bool :=
  match parseTaskDate s with
  | DateResult.valid _ => true
  | _ => false

/-- Example task for claim C2, due 240101. -/
def tC2a : Task := ⟨"a", 1, 1, "240101", "n1.md", 0, TaskStatus.TODO⟩

/-- Example task for claim C2, due 991231. -/
def tC2b : Task := ⟨"b", 1, 1, "991231", "n2.md", 0, TaskStatus.TODO⟩

/-- Example task for claim C2, due 300101. -/
def tC2c : Task := ⟨"c", 1, 1, "300101", "n3.md", 0, TaskStatus.TODO⟩

/-- Claim C2 reference date: day count of 2024-01-15. -/
def exTodayC2 : Int := daysFromCivil 2024 1 15

/-- Example task for claim C9: a five-character due date. -/
def tC9 : Task := ⟨"bad", 1, 1, "24011", "n.md", 0, TaskStatus.TODO⟩

/-- Example line for claim C7 whose marker does not start the line. -/
def exLineC7 : String := "x -=TODO 1 1 240101=-y"

/-- The C7 example line after the rollover rewrite. -/
def exLineC7R : String := "x -=ROLL 1 1 240101=-y"

/-- The task the parser produces from the C7 example line. -/
def tC7 : Task := ⟨"y", 1, 1, "240101", "f.md", 0, TaskStatus.TODO⟩

/-- Example document for the amended C7 theorem. -/
def exLinesC7 : List String := ["-=TODO 1 1 240101=- a", "mid", "-=TODO 2 2 240102=- b"]

/-- Task on line 0 of the C7 example document. -/
def tC7a : Task := ⟨"a", 1, 1, "240101", "g.md", 0, TaskStatus.TODO⟩

/-- Task on line 2 of the C7 example document. -/
def tC7b : Task := ⟨"b", 2, 2, "240102", "g.md", 2, TaskStatus.TODO⟩

/-- Example data for claim C10: a task recording a stale line number
beyond the end of its one-line source document. -/
def tC10 : Task := ⟨"gone", 1, 1, "240101", "h.md", 5, TaskStatus.TODO⟩

/-- Example document for claim C10. -/
def exLinesC10 : List String := ["only line"]

/-- Claim C3 example: the saved file path. -/
def exPathC3 : String := "a.md"

/-- Claim C3 example: the current content of the saved file. -/
def exDocC3 : List String := ["-=TODO 1 1 240101=- x"]

/-- Claim C3 example: the enumerated file tree. -/
def exFsC3 : FileSys := [(exPathC3, FileEntry.ok exDocC3 1 5)]

/-- Claim C3 example: a cache from a scan at time 50 that saw the file
before its task was added. -/
def exCacheC3 : TaskCache := ⟨[], 50, [(exPathC3, 1)], [(exPathC3, 5)]⟩

/-- Claim C3 example scanner state. -/
def exStateC3 : ScannerState := ⟨some exCacheC3⟩

/-- Claim C3 example: the task the file currently contains. -/
def exTaskC3 : Task := ⟨"x", 1, 1, "240101", exPathC3, 0, TaskStatus.TODO⟩

/-- Claim C6 example: file path. -/
def exPathC6 : String := "b.md"

/-- Claim C6 example: file content. -/
def exDocC6 : List String := ["-=TODO 1 1 240101=- y"]

/-- Claim C6 example: enumerated file tree. -/
def exFsC6 : FileSys := [(exPathC6, FileEntry.ok exDocC6 1 5)]

/-- Claim C6 example: the task in the file. -/
def exTaskC6 : Task := ⟨"y", 1, 1, "240101", exPathC6, 0, TaskStatus.TODO⟩

/-- Claim C6 example: the cache produced by the first call. -/
def exCacheC6 : TaskCache := ⟨[exTaskC6], 0, [(exPathC6, 1)], [(exPathC6, 5)]⟩

/-- Claim C6 example scanner state (empty cache). -/
def exStateC6 : ScannerState := ⟨none⟩

/-- Claim C4 example: the ROLLED keyword of the spec wire format. -/
def rolledChars : List Char := ['R', 'O', 'L', 'L', 'E', 'D']

/-- Claim C4 example: a wire-format ROLLED line. -/
def exRolledLineC4 : String :=
  (emitTask rolledChars 1 1 ['2', '4', '0', '1', '0', '1'] ['x']).asString

/-- Claim C4 example file path. -/
def exFpC4 : String := "f4.md"

/-- Claim C5 example: a line with a five-digit date, outside the strict
grammar of the claim. -/
def exLineC5 : String := "-=TODO 1 1 24011=-x"

/-- Claim C5 example file path. -/
def exFpC5 : String := "f5.md"

/-- The task the parser returns for the C5 example line. -/
def tC5 : Task := ⟨"x", 1, 1, "24011", exFpC5, 0, TaskStatus.TODO⟩

/-! ## Helper lemmas about the regex model -/

theorem isPrefixOf_append_self (xs ys : List Char) : xs.isPrefixOf (xs ++ ys) = true := by
  rw [List.isPrefixOf_iff_prefix]
  exact List.prefix_append xs ys

theorem takeWhile_digits_append (p : List Char) (c : Char) (r : List Char)
    (hp : p.all isDigitChar = true) (hc : isDigitChar c = false) :
    (p ++ c :: r).takeWhile isDigitChar = p := by
  induction p with
  | nil => simp [List.takeWhile_cons, hc]
  | cons a l ih =>
    simp only [List.all_cons, Bool.and_eq_true] at hp
    simp [List.takeWhile_cons, hp.1, ih hp.2]

theorem dropWhile_digits_append (p : List Char) (c : Char) (r : List Char)
    (hp : p.all isDigitChar = true) (hc : isDigitChar c = false) :
    (p ++ c :: r).dropWhile isDigitChar = c :: r := by
  induction p with
  | nil => simp [List.dropWhile_cons, hc]
  | cons a l ih =>
    simp only [List.all_cons, Bool.and_eq_true] at hp
    simp [List.dropWhile_cons, hp.1, ih hp.2]

theorem matchFields_exact (p d dt text : List Char)
    (hp : p.all isDigitChar = true) (hpne : p ≠ [])
    (hd : d.all isDigitChar = true) (hdne : d ≠ [])
    (hdt : dt.all isDigitChar = true) (hdtne : dt ≠ []) :
    matchFields (p ++ ' ' :: (d ++ ' ' :: (dt ++ '=' :: '-' :: text))) = some (p, d, dt, text) := by
  unfold matchFields
  rw [takeWhile_digits_append p ' ' _ hp (by decide),
    dropWhile_digits_append p ' ' _ hp (by decide)]
  simp only [hpne, if_false]
  rw [takeWhile_digits_append d ' ' _ hd (by decide),
    dropWhile_digits_append d ' ' _ hd (by decide)]
  simp only [hdne, if_false]
  rw [takeWhile_digits_append dt '=' _ hdt (by decide),
    dropWhile_digits_append dt '=' _ hdt (by decide)]
  simp only [hdtne, if_false]

theorem findMarker_cons (kw : List Char) (c : Char) (cs : List Char) :
    findMarker kw (c :: cs) =
      match matchAt kw (c :: cs) with
      | some r => some r
      | none => findMarker kw cs := rfl

theorem matchAt_self (kw tail : List Char) (r : List Char × List Char × List Char × List Char)
    (h : matchFields tail = some r) :
    matchAt kw (markerLit kw ++ tail) = some r := by
  have hpre := isPrefixOf_append_self (markerLit kw) tail
  unfold matchAt
  simp only [hpre, eq_self_iff_true, if_true]
  rw [List.drop_left]
  exact h

theorem findMarker_self (kw tail : List Char) (r : List Char × List Char × List Char × List Char)
    (h : matchFields tail = some r) :
    findMarker kw (markerLit kw ++ tail) = some r := by
  have hAt := matchAt_self kw tail r h
  have hshape : markerLit kw ++ tail = '-' :: ('=' :: (kw ++ [' ']) ++ tail) := by
    simp [markerLit]
  rw [hshape] at hAt ⊢
  rw [findMarker_cons, hAt]

theorem findMarker_cons_no_dash (kw : List Char) (c : Char) (cs : List Char) (hc : c ≠ '-') :
    findMarker kw (c :: cs) = findMarker kw cs := by
  have hbeq : ('-' == c) = false := beq_eq_false_iff_ne.mpr (Ne.symm hc)
  have hpre : (markerLit kw).isPrefixOf (c :: cs) = false := by
    simp [markerLit, List.isPrefixOf_cons₂, hbeq]
  simp [findMarker, matchAt, hpre]

theorem findMarker_append_no_dash (kw A cs : List Char) (hA : ∀ c ∈ A, c ≠ '-') :
    findMarker kw (A ++ cs) = findMarker kw cs := by
  induction A with
  | nil => rfl
  | cons a l ih =>
    rw [List.cons_append, findMarker_cons_no_dash kw a _ (hA a (by simp))]
    exact ih (fun c hc => hA c (by simp [hc]))

theorem findMarker_eq_none_of_not_contains (kw cs : List Char)
    (h : containsSeq (markerLit kw) cs = false) :
    findMarker kw cs = none := by
  induction cs with
  | nil => rfl
  | cons a l ih =>
    simp only [containsSeq, Bool.or_eq_false_iff] at h
    simp [findMarker, matchAt, h.1, ih h.2]

theorem ne_dash_of_digit (c : Char) (h : isDigitChar c = true) : c ≠ '-' := by
  intro hc
  rw [hc] at h
  exact absurd h (by decide)

theorem digits_no_dash (p : List Char) (hp : p.all isDigitChar = true) : ∀ c ∈ p, c ≠ '-' := by
  intro c hc
  exact ne_dash_of_digit c (by
    simp only [List.all_eq_true] at hp
    exact hp c hc)

theorem matchAt_none_of_no_lit (kw cs : List Char)
    (h : (markerLit kw).isPrefixOf cs = false) : matchAt kw cs = none := by
  unfold matchAt
  simp [h]

theorem findMarker_cons_of_matchAt_none (kw : List Char) (c : Char) (cs : List Char)
    (h : matchAt kw (c :: cs) = none) :
    findMarker kw (c :: cs) = findMarker kw cs := by
  rw [findMarker_cons, h]

theorem notPrefix_todo_at_complete (rest : List Char) :
    (markerLit todoChars).isPrefixOf ('-' :: '=' :: 'C' :: rest) = false := by
  have e1 : ('-' == '-') = true := by decide
  have e2 : ('=' == '=') = true := by decide
  have e3 : ('T' == 'C') = false := by decide
  simp only [markerLit, todoChars, List.cons_append, List.nil_append, List.isPrefixOf_cons₂,
    e1, e2, e3, Bool.true_and, Bool.false_and]

theorem matchAt_todo_dash (text : List Char)
    (h2 : ('=' :: (todoChars ++ [' '])).isPrefixOf text = false) :
    matchAt todoChars ('-' :: text) = none := by
  apply matchAt_none_of_no_lit
  have e1 : ('-' == '-') = true := by decide
  simp only [markerLit, List.isPrefixOf_cons₂, e1, Bool.true_and]
  exact h2

theorem findMarker_todo_on_complete_line (p d dt text : List Char)
    (hp : p.all isDigitChar = true) (hd : d.all isDigitChar = true)
    (hdt : dt.all isDigitChar = true)
    (h1 : containsSeq (markerLit todoChars) text = false)
    (h2 : ('=' :: (todoChars ++ [' '])).isPrefixOf text = false) :
    findMarker todoChars
      (markerLit completeChars ++ (p ++ (' ' :: (d ++ (' ' :: (dt ++ ('=' :: ('-' :: text)))))))) = none := by
  have hshape : markerLit completeChars ++ (p ++ (' ' :: (d ++ (' ' :: (dt ++ ('=' :: ('-' :: text))))))) =
      '-' :: '=' :: 'C' :: (['O', 'M', 'P', 'L', 'E', 'T', 'E', ' '] ++ (p ++ (' ' :: (d ++ (' ' :: (dt ++ ('=' :: ('-' :: text)))))))) := by
    simp [markerLit, completeChars]
  rw [hshape]
  rw [findMarker_cons_of_matchAt_none _ _ _ (matchAt_none_of_no_lit _ _ (notPrefix_todo_at_complete _))]
  have hshape2 : ('=' : Char) :: 'C' :: (['O', 'M', 'P', 'L', 'E', 'T', 'E', ' '] ++ (p ++ (' ' :: (d ++ (' ' :: (dt ++ ('=' :: ('-' :: text)))))))) =
      ['=', 'C', 'O', 'M', 'P', 'L', 'E', 'T', 'E', ' '] ++ (p ++ (' ' :: (d ++ (' ' :: (dt ++ ('=' :: ('-' :: text))))))) := by
    simp
  rw [hshape2]
  rw [findMarker_append_no_dash _ _ _ (by decide)]
  rw [findMarker_append_no_dash _ p _ (digits_no_dash p hp)]
  rw [findMarker_cons_no_dash _ ' ' _ (by decide)]
  rw [findMarker_append_no_dash _ d _ (digits_no_dash d hd)]
  rw [findMarker_cons_no_dash _ ' ' _ (by decide)]
  rw [findMarker_append_no_dash _ dt _ (digits_no_dash dt hdt)]
  rw [findMarker_cons_no_dash _ '=' _ (by decide)]
  rw [findMarker_cons_of_matchAt_none _ _ _ (matchAt_todo_dash text h2)]
  exact findMarker_eq_none_of_not_contains _ _ h1

theorem toggleChars_of_todo (line today p d dt text : List Char)
    (h : findMarker todoChars line = some (p, d, dt, text)) :
    toggleChars line today =
      markerLit completeChars ++ (p ++ (' ' :: (d ++ (' ' :: (today ++ ('=' :: ('-' :: text))))))) := by
  unfold toggleChars
  rw [h]
  simp [List.cons_append, List.append_assoc]

theorem toggleChars_of_complete (line today p d dt text : List Char)
    (h1 : findMarker todoChars line = none)
    (h2 : findMarker completeChars line = some (p, d, dt, text)) :
    toggleChars line today =
      markerLit todoChars ++ (p ++ (' ' :: (d ++ (' ' :: (dt ++ ('=' :: ('-' :: text))))))) := by
  unfold toggleChars
  rw [h1, h2]
  simp [List.cons_append, List.append_assoc]


/-- C1: counterexample.  Toggling the spec example TODO line with today
240116 yields the expected COMPLETE line, but toggling that COMPLETE
line again yields a TODO line stamped 240116 (today), not the original
line with its 240101 due date: the first toggle overwrote the original
date, so the round trip cannot restore it. -/
theorem toggle_roundtrip_counterexample :
    toggleLine exLineC1 exTodayStrC1 = exOnceC1 ∧
    toggleLine exOnceC1 exTodayStrC1 = exTwiceC1 ∧
    exTwiceC1 ≠ exLineC1 :=
  ⟨by decide, by decide, by decide⟩

/-- C1 (amended): toggling a TODO marker line stamps todays date on the
COMPLETE line, and toggling that COMPLETE line restores the date
embedded in the COMPLETE marker, which is the completion date; hence
toggle followed by toggle yields the original line with its due date
replaced by today, never the original due date.  The description must
not itself embed a TODO marker occurrence. -/
theorem toggle_twice_stamps_today (p d dt today text : List Char)
    (hp : p.all isDigitChar = true) (hpne : p ≠ [])
    (hd : d.all isDigitChar = true) (hdne : d ≠ [])
    (hdt : dt.all isDigitChar = true) (hdtne : dt ≠ [])
    (ht : today.all isDigitChar = true) (htne : today ≠ [])
    (h1 : containsSeq (markerLit todoChars) text = false)
    (h2 : ('=' :: (todoChars ++ [' '])).isPrefixOf text = false) :
    toggleChars (toggleChars
        (markerLit todoChars ++ (p ++ (' ' :: (d ++ (' ' :: (dt ++ ('=' :: ('-' :: text)))))))) today) today =
      markerLit todoChars ++ (p ++ (' ' :: (d ++ (' ' :: (today ++ ('=' :: ('-' :: text))))))) := by
  rw [toggleChars_of_todo _ today p d dt text
    (findMarker_self _ _ _ (matchFields_exact p d dt text hp hpne hd hdne hdt hdtne))]
  exact toggleChars_of_complete _ today p d today text
    (findMarker_todo_on_complete_line p d today text hp hd ht h1 h2)
    (findMarker_self _ _ _ (matchFields_exact p d today text hp hpne hd hdne ht htne))

/-- C1: witness instantiating the amended toggle theorem on the spec
example fields. -/
theorem toggle_twice_stamps_today_witness :
    toggleChars (toggleChars
        (markerLit todoChars ++ (exPC1 ++ (' ' :: (exDC1 ++ (' ' :: (exDateC1 ++ ('=' :: ('-' :: exTextC1)))))))) exTodayC1) exTodayC1 =
      markerLit todoChars ++ (exPC1 ++ (' ' :: (exDC1 ++ (' ' :: (exTodayC1 ++ ('=' :: ('-' :: exTextC1))))))) :=
  toggle_twice_stamps_today exPC1 exDC1 exDateC1 exTodayC1 exTextC1
    (by decide) (by decide) (by decide) (by decide) (by decide) (by decide)
    (by decide) (by decide) (by decide) (by decide)

/-- C2: counterexample.  The claim says the filter selects the tasks
dated 240101 and 991231 when today is 2024-01-15; the code parses
991231 as 2099-12-31 (two-digit years are read as 20YY), so that task
is excluded. -/
theorem rollover_filter_excludes_991231 :
    tC2b ∈ [tC2a, tC2b, tC2c] ∧ tC2b ∉ filterPastTasks [tC2a, tC2b, tC2c] exTodayC2 :=
  ⟨by decide, by decide⟩

/-- C2 (amended): with today 2024-01-15, the rollover date filter
selects exactly the task dated 240101 out of the three open tasks dated
240101, 991231 and 300101: the comparison is a strict date comparison
of the parsed due date against today, with two-digit years read as
20YY, so 991231 means 2099-12-31 and is excluded along with 300101. -/
theorem rollover_filter_selects_only_240101 :
    filterPastTasks [tC2a, tC2b, tC2c] exTodayC2 = [tC2a] := by decide

/-- C9: a task whose due date does not parse to a comparable date is
excluded from the rollover date filter, and a due date whose length is
not six makes parseTaskDate throw (modelled as the err result); the
filter itself is a total function, so no error escapes it. -/
theorem unparsable_due_date_excluded (tasks : List Task) (today : Int) (t : Task) :
    (t.dueDate.length ≠ 6 → parseTaskDate t.dueDate = DateResult.err) ∧
    (dateParses t.dueDate = false → t ∉ filterPastTasks tasks today) := by
  constructor
  · intro hlen
    unfold parseTaskDate
    simp [hlen]
  · intro h hmem
    rcases List.mem_filter.mp hmem with ⟨-, hkeep⟩
    unfold taskIsPastDue at hkeep
    unfold dateParses at h
    cases hd : parseTaskDate t.dueDate <;> rw [hd] at hkeep h <;> simp_all

/-- C9: witness on a concrete task with a five-character due date. -/
theorem unparsable_due_date_excluded_witness :
    parseTaskDate tC9.dueDate = DateResult.err ∧ tC9 ∉ filterPastTasks [tC9] 0 :=
  ⟨(unparsable_due_date_excluded [tC9] 0 tC9).1 (by decide),
   (unparsable_due_date_excluded [tC9] 0 tC9).2 (by decide)⟩

/-! ## Lemmas about marking source tasks -/

theorem length_applyMark (lines : List String) (t : Task) :
    (applyMark lines t).length = lines.length := by
  unfold applyMark
  split
  · simp
  · rfl

theorem length_markFold (ts : List Task) :
    ∀ lines : List String, (ts.foldl applyMark lines).length = lines.length := by
  induction ts with
  | nil => intro lines; rfl
  | cons t ts ih =>
    intro lines
    rw [List.foldl_cons, ih, length_applyMark]

theorem foldl_orderedInsert_id (l : List Task) (t : Task) (n : Nat)
    (hid : ∀ acc : List String, acc.length = n → applyMark acc t = acc) :
    ∀ lines : List String, lines.length = n →
      (List.orderedInsert taskLineGE t l).foldl applyMark lines = l.foldl applyMark lines := by
  induction l with
  | nil =>
    intro lines hlen
    simp [List.orderedInsert, hid lines hlen]
  | cons b bs ih =>
    intro lines hlen
    rw [List.orderedInsert]
    by_cases h : taskLineGE t b
    · rw [if_pos h, List.foldl_cons, hid lines hlen]
    · rw [if_neg h, List.foldl_cons, List.foldl_cons]
      exact ih (applyMark lines b) (by rw [length_applyMark, hlen])

theorem getD_set_self (l : List String) (i : Nat) (a : String) (h : i < l.length) :
    (l.set i a).getD i "" = a := by
  induction l generalizing i with
  | nil => simp at h
  | cons b bs ih =>
    cases i with
    | zero => rfl
    | succ j => simpa using ih j (by simpa using h)

theorem getD_set_ne (l : List String) (i j : Nat) (a : String) (h : i ≠ j) :
    (l.set i a).getD j "" = l.getD j "" := by
  induction l generalizing i j with
  | nil => rfl
  | cons b bs ih =>
    cases i with
    | zero =>
      cases j with
      | zero => exact absurd rfl h
      | succ k => rfl
    | succ i₂ =>
      cases j with
      | zero => rfl
      | succ k => simpa using ih i₂ k (by omega)

theorem markFold_getD (ts : List Task) :
    ∀ lines : List String, (ts.map Task.line).Nodup → ∀ i : Nat, i < lines.length →
      (ts.foldl applyMark lines).getD i "" =
        if ts.any (fun t => t.line == (i : Int)) then markMovedLine (lines.getD i "")
        else lines.getD i "" := by
  induction ts with
  | nil => intro lines _ i _; simp
  | cons t ts ih =>
    intro lines hnd i hi
    rw [List.map_cons, List.nodup_cons] at hnd
    rw [List.foldl_cons]
    rw [ih (applyMark lines t) hnd.2 i (by rw [length_applyMark]; exact hi)]
    by_cases ht : t.line = (i : Int)
    · have hany : ts.any (fun u => u.line == (i : Int)) = false := by
        rw [List.any_eq_false]
        intro u hu
        simp only [beq_iff_eq]
        intro he
        exact hnd.1 (by
          rw [← ht] at he
          exact List.mem_map.mpr ⟨u, hu, he⟩)
      have hmark : applyMark lines t = lines.set i (markMovedLine (lines.getD i "")) := by
        unfold applyMark
        rw [if_pos ⟨by omega, by omega⟩]
        have : t.line.toNat = i := by omega
        rw [this]
      rw [hmark, hany]
      have hcond : (t :: ts).any (fun u => u.line == (i : Int)) = true := by
        simp [ht]
      rw [hcond, if_pos rfl, if_neg (by simp)]
      · exact getD_set_self lines i _ hi
    · have hget : (applyMark lines t).getD i "" = lines.getD i "" := by
        unfold applyMark
        split
        · next hin =>
          have : t.line.toNat ≠ i := by omega
          exact getD_set_ne lines t.line.toNat i _ this
        · rfl
      rw [hget]
      have hcond : (t :: ts).any (fun u => u.line == (i : Int)) = ts.any (fun u => u.line == (i : Int)) := by
        simp [ht]
      rw [hcond]

theorem sortTasksDesc_strict (ts : List Task) (hnd : (ts.map Task.line).Nodup) :
    List.Pairwise (fun a b => b.line < a.line) (sortTasksDesc ts) := by
  have hs : List.Pairwise taskLineGE (sortTasksDesc ts) :=
    List.sorted_insertionSort taskLineGE ts
  have hperm : (sortTasksDesc ts).Perm ts := List.perm_insertionSort taskLineGE ts
  have hnd2 : ((sortTasksDesc ts).map Task.line).Nodup :=
    ((hperm.map Task.line).nodup_iff).mpr hnd
  have hne : List.Pairwise (fun a b : Task => a.line ≠ b.line) (sortTasksDesc ts) :=
    List.pairwise_map.mp hnd2
  exact (hs.and hne).imp (fun h => lt_of_le_of_ne h.1 (Ne.symm h.2))

theorem markMovedLine_leading (rest : List Char) :
    markMovedLine ((markerLit todoChars ++ rest).asString) = (markerLit rollKw ++ rest).asString := by
  unfold markMovedLine
  congr 1
  show replaceSeq (markerLit todoChars) (markerLit rollKw) (markerLit todoChars ++ rest) =
    markerLit rollKw ++ rest
  have hshape : markerLit todoChars ++ rest = '-' :: ('=' :: ((todoChars ++ [' ']) ++ rest)) := by
    simp [markerLit]
  rw [hshape]
  rw [replaceSeq]
  rw [← hshape]
  rw [if_pos ?hc]
  case hc =>
    rw [isPrefixOf_append_self]
  rw [List.drop_left]

theorem perm_any_eq {α : Type} (l₁ l₂ : List α) (h : l₁.Perm l₂) (f : α → Bool) :
    l₁.any f = l₂.any f := by
  cases h1 : l₂.any f with
  | true =>
    rcases List.any_eq_true.mp h1 with ⟨x, hx, hfx⟩
    exact List.any_eq_true.mpr ⟨x, h.mem_iff.mpr hx, hfx⟩
  | false =>
    rw [List.any_eq_false]
    intro x hx
    exact (List.any_eq_false.mp h1) x (h.mem_iff.mp hx)

/-- C10: a task whose recorded line number is negative or not below the
line count of its source document is silently skipped by the rewrite
loop: the marking result is the same as if the task were absent, and the
document keeps its line count, so a stale line number never reaches a
nonexistent index. -/
theorem mark_skips_out_of_range (lines : List String) (t : Task) (ts : List Task)
    (h : ¬(0 ≤ t.line ∧ t.line < (lines.length : Int))) :
    markOriginalTasksInFile lines (t :: ts) = markOriginalTasksInFile lines ts ∧
    (markOriginalTasksInFile lines (t :: ts)).length = lines.length := by
  have hid : ∀ acc : List String, acc.length = lines.length → applyMark acc t = acc := by
    intro acc hacc
    unfold applyMark
    have hng : ¬(0 ≤ t.line ∧ t.line < (acc.length : Int)) := by rw [hacc]; exact h
    rw [if_neg hng]
  constructor
  · show (sortTasksDesc (t :: ts)).foldl applyMark lines = (sortTasksDesc ts).foldl applyMark lines
    have hsort : sortTasksDesc (t :: ts) = List.orderedInsert taskLineGE t (sortTasksDesc ts) := rfl
    rw [hsort]
    exact foldl_orderedInsert_id (sortTasksDesc ts) t lines.length hid lines rfl
  · exact length_markFold _ _

/-- C10: witness on a one-line document and a task recorded at line 5. -/
theorem mark_skips_out_of_range_witness :
    markOriginalTasksInFile exLinesC10 [tC10] = markOriginalTasksInFile exLinesC10 [] ∧
    (markOriginalTasksInFile exLinesC10 [tC10]).length = exLinesC10.length :=
  mark_skips_out_of_range exLinesC10 tC10 [] (by decide)

/-- C7: counterexample.  The parser accepts a marker that does not start
its line, and the rewrite then replaces the first occurrence of the TODO
token even though the line has no leading TODO token, so the rewritten
line is not obtained by replacing a leading token (which this line does
not have: replacing a leading token would leave it unchanged). -/
theorem mark_nonleading_marker_counterexample :
    parseTask exLineC7 tC7.filePath 0 = some tC7 ∧
    (markerLit todoChars).isPrefixOf exLineC7.data = false ∧
    markOriginalTasksInFile [exLineC7] [tC7] = [exLineC7R] ∧
    exLineC7R ≠ exLineC7 :=
  ⟨by decide, by decide, by decide, by decide⟩

/-- C7 (amended): during the marking step the tasks of a file are sorted
into strictly descending line order before any rewrite; the document
keeps its line count; a line targeted by some task index is rewritten by
replacing the first occurrence of the TODO token (and every other line
is unchanged); and on a line that begins with the TODO marker this
replacement changes exactly the keyword token, preserving the priority,
difficulty, date and description text that follow it. -/
theorem mark_sources_descending_and_rewrite (lines : List String) (ts : List Task)
    (hnd : (ts.map Task.line).Nodup) :
    List.Pairwise (fun a b => b.line < a.line) (sortTasksDesc ts) ∧
    (markOriginalTasksInFile lines ts).length = lines.length ∧
    (∀ i : Nat, i < lines.length →
      (markOriginalTasksInFile lines ts).getD i "" =
        if ts.any (fun t => t.line == (i : Int)) then markMovedLine (lines.getD i "")
        else lines.getD i "") ∧
    (∀ rest : List Char,
      markMovedLine ((markerLit todoChars ++ rest).asString) = (markerLit rollKw ++ rest).asString) := by
  have hperm : (sortTasksDesc ts).Perm ts := List.perm_insertionSort taskLineGE ts
  refine ⟨sortTasksDesc_strict ts hnd, length_markFold _ _, ?_, markMovedLine_leading⟩
  intro i hi
  show ((sortTasksDesc ts).foldl applyMark lines).getD i "" = _
  rw [markFold_getD (sortTasksDesc ts) lines (((hperm.map Task.line).nodup_iff).mpr hnd) i hi]
  rw [perm_any_eq _ _ hperm]

/-- C7: witness on a three-line document with tasks on lines 0 and 2. -/
theorem mark_sources_descending_and_rewrite_witness :
    List.Pairwise (fun a b => b.line < a.line) (sortTasksDesc [tC7a, tC7b]) ∧
    (markOriginalTasksInFile exLinesC7 [tC7a, tC7b]).length = exLinesC7.length ∧
    ((markOriginalTasksInFile exLinesC7 [tC7a, tC7b]).getD 1 "" =
      if [tC7a, tC7b].any (fun t => t.line == (1 : Int)) then markMovedLine (exLinesC7.getD 1 "")
      else exLinesC7.getD 1 "") ∧
    markMovedLine ((markerLit todoChars ++ [' ', 'z']).asString) = (markerLit rollKw ++ [' ', 'z']).asString := by
  have h := mark_sources_descending_and_rewrite exLinesC7 [tC7a, tC7b] (by decide)
  exact ⟨h.1, h.2.1, h.2.2.1 1 (by decide), h.2.2.2 [' ', 'z']⟩

/-! ## Lemmas about the scan cache -/

theorem lookupA_insertA_ne (l : List (String × Nat)) (k k₂ : String) (v : Nat) (h : k₂ ≠ k) :
    lookupA (insertA l k v) k₂ = lookupA l k₂ := by
  induction l with
  | nil => simp [insertA, lookupA, Ne.symm h]
  | cons p t ih =>
    by_cases hp : p.1 = k
    · rw [insertA, if_pos hp, lookupA, if_neg (Ne.symm h), lookupA, if_neg (hp ▸ Ne.symm h)]
    · rw [insertA, if_neg hp]
      rw [lookupA, lookupA]
      split
      · rfl
      · exact ih

theorem lookupA_eraseA_self (l : List (String × Nat)) (k : String) :
    lookupA (eraseA l k) k = none := by
  induction l with
  | nil => rfl
  | cons p t ih =>
    by_cases hp : p.1 = k
    · rw [eraseA] at *
      simp only [List.filter_cons, hp, beq_self_eq_true, Bool.not_true, if_false]
      exact ih
    · rw [eraseA] at *
      have : (p.1 == k) = false := beq_eq_false_iff_ne.mpr hp
      simp only [List.filter_cons, this, Bool.not_false, if_true]
      rw [lookupA, if_neg hp]
      exact ih

theorem shouldRescanFile_cases (c : TaskCache) (fp : String) (v m : Nat) :
    shouldRescanFile c fp v m = (false, c) ∨
    shouldRescanFile c fp v m = (false, { c with fileVersions := insertA c.fileVersions fp v }) ∨
    shouldRescanFile c fp v m = (true, c) := by
  unfold shouldRescanFile
  cases hv : lookupA c.fileVersions fp with
  | some v₀ =>
    cases hb : (v₀ == v) with
    | true => left; simp [hb]
    | false =>
      cases hts : lookupA c.fileTimestamps fp with
      | some ts =>
        cases htm : (ts == m) with
        | true => right; left; simp [hb, htm]
        | false => right; right; simp [hb, htm]
      | none => right; right; simp [hb]
  | none =>
    cases hts : lookupA c.fileTimestamps fp with
    | some ts =>
      cases htm : (ts == m) with
      | true => right; left; simp [htm]
      | false => right; right; simp [htm]
    | none => right; right; simp

theorem shouldRescanFile_of_none (c : TaskCache) (fp : String) (v m : Nat)
    (hv : lookupA c.fileVersions fp = none) (hts : lookupA c.fileTimestamps fp = none) :
    shouldRescanFile c fp v m = (true, c) := by
  unfold shouldRescanFile
  rw [hv, hts]
  rfl

theorem scanFileForTasks_rescan (c : TaskCache) (fp : String) (lines : List String) (v m : Nat)
    (h : shouldRescanFile c fp v m = (true, c)) :
    scanFileForTasks c fp (FileEntry.ok lines v m) =
      (parseLines lines fp,
       { c with fileVersions := insertA c.fileVersions fp v,
                fileTimestamps := insertA c.fileTimestamps fp m }, 1) := by
  simp only [scanFileForTasks]
  rw [h]
  simp

theorem scanFile_versions_lookup (c : TaskCache) (fp : String) (entry : FileEntry) (k : String)
    (h : k ≠ fp) :
    lookupA (scanFileForTasks c fp entry).2.1.fileVersions k = lookupA c.fileVersions k := by
  cases entry with
  | broken => rfl
  | ok lines v m =>
    rcases shouldRescanFile_cases c fp v m with hr | hr | hr
    · simp only [scanFileForTasks]
      rw [hr]
      simp
    · simp only [scanFileForTasks]
      rw [hr]
      simp
      exact lookupA_insertA_ne _ _ _ _ h
    · simp only [scanFileForTasks]
      rw [hr]
      simp
      exact lookupA_insertA_ne _ _ _ _ h

theorem scanFile_timestamps_lookup (c : TaskCache) (fp : String) (entry : FileEntry) (k : String)
    (h : k ≠ fp) :
    lookupA (scanFileForTasks c fp entry).2.1.fileTimestamps k = lookupA c.fileTimestamps k := by
  cases entry with
  | broken => rfl
  | ok lines v m =>
    rcases shouldRescanFile_cases c fp v m with hr | hr | hr
    · simp only [scanFileForTasks]
      rw [hr]
      simp
    · simp only [scanFileForTasks]
      rw [hr]
      simp
    · simp only [scanFileForTasks]
      rw [hr]
      simp
      exact lookupA_insertA_ne _ _ _ _ h

theorem reconcileAux_cons (c : TaskCache) (fp : String) (entry : FileEntry) (rest : FileSys)
    (acc : List Task) (reads : Nat) :
    reconcileAux c ((fp, entry) :: rest) acc reads =
      reconcileAux (scanFileForTasks c fp entry).2.1 rest (acc ++ (scanFileForTasks c fp entry).1)
        (reads + (scanFileForTasks c fp entry).2.2) := rfl

theorem reconcileAux_acc_prefix (files : FileSys) :
    ∀ (c : TaskCache) (acc : List Task) (reads : Nat) (t : Task),
      t ∈ acc → t ∈ (reconcileAux c files acc reads).1 := by
  induction files with
  | nil => intro c acc reads t ht; exact ht
  | cons pr rest ih =>
    intro c acc reads t ht
    obtain ⟨fp, entry⟩ := pr
    rw [reconcileAux_cons]
    exact ih _ _ _ t (List.mem_append_left _ ht)

theorem reconcile_contains_fresh (files : FileSys) :
    ∀ (c : TaskCache) (acc : List Task) (reads : Nat) (f : String) (lines : List String) (v m : Nat),
      lookupA c.fileVersions f = none → lookupA c.fileTimestamps f = none →
      (f, FileEntry.ok lines v m) ∈ files → (files.map Prod.fst).Nodup →
      ∀ t ∈ parseLines lines f, t ∈ (reconcileAux c files acc reads).1 := by
  induction files with
  | nil =>
    intro c acc reads f lines v m _ _ hmem _ t _
    exact absurd hmem (List.not_mem_nil _)
  | cons pr rest ih =>
    intro c acc reads f lines v m hv hts hmem hnd t htp
    obtain ⟨fp, entry⟩ := pr
    rw [List.map_cons, List.nodup_cons] at hnd
    rcases List.mem_cons.mp hmem with heq | hmem2
    · injection heq with h1 h2
      subst h1
      subst h2
      rw [reconcileAux_cons]
      rw [scanFileForTasks_rescan _ _ lines v m (shouldRescanFile_of_none _ _ v m hv hts)]
      exact reconcileAux_acc_prefix rest _ _ _ t (List.mem_append_right _ htp)
    · have hfmem : f ∈ rest.map Prod.fst :=
        List.mem_map.mpr ⟨(f, FileEntry.ok lines v m), hmem2, rfl⟩
      have hfp : fp ≠ f := fun he => hnd.1 (by rw [he]; exact hfmem)
      rw [reconcileAux_cons]
      exact ih _ _ _ f lines v m
        (by rw [scanFile_versions_lookup c fp entry f (Ne.symm hfp)]; exact hv)
        (by rw [scanFile_timestamps_lookup c fp entry f (Ne.symm hfp)]; exact hts)
        hmem2 hnd.2 t htp

theorem getOpenTasks_fast (s : ScannerState) (c : TaskCache) (now timeout : Nat) (fs : FileSys)
    (hc : s.cache = some c) (hfr : now - c.lastScanTime < timeout) :
    getOpenTasks s now timeout fs = (filterTodo c.tasks, s, 0) := by
  unfold getOpenTasks
  rw [hc]
  simp [hfr]

theorem runScanPass_returns_cache (s : ScannerState) (now : Nat) (fs : FileSys) :
    ∃ c : TaskCache, (runScanPass s now fs).2.1.cache = some c ∧
      (runScanPass s now fs).1 = filterTodo c.tasks :=
  ⟨_, rfl, rfl⟩

theorem getOpenTasks_scan_eq (s : ScannerState) (now timeout : Nat) (fs : FileSys)
    (h : ∀ c : TaskCache, s.cache = some c → ¬(now - c.lastScanTime < timeout)) :
    getOpenTasks s now timeout fs = runScanPass s now fs := by
  cases hs : s.cache with
  | none =>
    unfold getOpenTasks
    rw [hs]
  | some c₀ =>
    unfold getOpenTasks
    rw [hs]
    simp [h c₀ hs]

theorem getOpenTasks_returns_cache (s : ScannerState) (now timeout : Nat) (fs : FileSys) :
    ∃ c : TaskCache, (getOpenTasks s now timeout fs).2.1.cache = some c ∧
      (getOpenTasks s now timeout fs).1 = filterTodo c.tasks := by
  cases hs : s.cache with
  | none =>
    have he : getOpenTasks s now timeout fs = runScanPass s now fs := by
      unfold getOpenTasks
      rw [hs]
    rw [he]
    exact runScanPass_returns_cache s now fs
  | some c₀ =>
    by_cases hfr : now - c₀.lastScanTime < timeout
    · rw [getOpenTasks_fast s c₀ now timeout fs hs hfr]
      exact ⟨c₀, hs, rfl⟩
    · have he : getOpenTasks s now timeout fs = runScanPass s now fs := by
        unfold getOpenTasks
        rw [hs]
        simp [hfr]
      rw [he]
      exact runScanPass_returns_cache s now fs


/-- C3: counterexample.  A save notification invalidates the file
entry, but a getOpenTasks call made inside the staleness window serves
the remaining cached tasks without any file read, so the returned list
misses the TODO task the saved file currently contains: the forced
re-parse happens only once a reconciliation pass runs. -/
theorem invalidate_fresh_cache_counterexample :
    getOpenTasks (invalidateFileInCache exStateC3 exPathC3) 60 30 exFsC3 =
      ([], invalidateFileInCache exStateC3 exPathC3, 0) ∧
    parseLines exDocC3 exPathC3 = [exTaskC3] ∧
    exTaskC3.status = TaskStatus.TODO :=
  ⟨by decide, by decide, rfl⟩

/-- C3 (amended): after a save notification invalidates a file cache
entry (clearing its tasks, version and timestamp records), the next
getOpenTasks call that runs a reconciliation pass — one made at or past
the staleness threshold — re-parses that file, and every TODO task of
the current file content appears in the returned list; a call made
inside the staleness window instead returns the cached list, which no
longer has that file anywhere in it. -/
theorem invalidate_then_stale_scan_reparses
    (s : ScannerState) (f : String) (now timeout : Nat) (fs : FileSys)
    (lines : List String) (v m : Nat) (c : TaskCache) (t : Task)
    (hc : s.cache = some c)
    (hstale : ¬(now - c.lastScanTime < timeout))
    (hmem : (f, FileEntry.ok lines v m) ∈ fs)
    (hnd : (fs.map Prod.fst).Nodup)
    (ht : t ∈ parseLines lines f)
    (htodo : t.status = TaskStatus.TODO) :
    t ∈ (getOpenTasks (invalidateFileInCache s f) now timeout fs).1 := by
  have hinv : invalidateFileInCache s f =
      ⟨some { c with
        tasks := c.tasks.filter (fun u => !(u.filePath == f)),
        fileVersions := eraseA c.fileVersions f,
        fileTimestamps := eraseA c.fileTimestamps f }⟩ := by
    unfold invalidateFileInCache
    rw [hc]
  have hscan : getOpenTasks (invalidateFileInCache s f) now timeout fs =
      runScanPass (invalidateFileInCache s f) now fs := by
    apply getOpenTasks_scan_eq
    intro c₂ hc₂
    rw [hinv] at hc₂
    injection hc₂ with hc₃
    rw [← hc₃]
    exact hstale
  rw [hscan, hinv]
  show t ∈ filterTodo (reconcileAux _ fs [] 0).1
  apply List.mem_filter.mpr
  refine ⟨?_, by simp [htodo]⟩
  exact reconcile_contains_fresh fs _ [] 0 f lines v m
    (lookupA_eraseA_self _ _) (lookupA_eraseA_self _ _) hmem hnd t ht

/-- C3: witness instantiating the amended theorem on a cache from time
50, a call at time 100 with a 30 unit staleness window, and the one
task of the saved file. -/
theorem invalidate_then_stale_scan_reparses_witness :
    exTaskC3 ∈ (getOpenTasks (invalidateFileInCache exStateC3 exPathC3) 100 30 exFsC3).1 :=
  invalidate_then_stale_scan_reparses exStateC3 exPathC3 100 30 exFsC3 exDocC3 1 5 exCacheC3
    exTaskC3 rfl (by decide) (by decide) (by decide) (by decide) rfl

/-- C6: calling getOpenTasks twice, where the second call happens while
the cache produced by the first call is younger than the staleness
threshold, returns the identical task list and the identical scanner
state and performs zero file reads on the second call: the second call
is served entirely from the cache. -/
theorem getOpenTasks_cached_idempotent
    (s : ScannerState) (now₁ now₂ timeout : Nat) (fs : FileSys) (c : TaskCache)
    (h₁ : (getOpenTasks s now₁ timeout fs).2.1.cache = some c)
    (h₂ : now₂ - c.lastScanTime < timeout) :
    getOpenTasks (getOpenTasks s now₁ timeout fs).2.1 now₂ timeout fs =
      ((getOpenTasks s now₁ timeout fs).1, (getOpenTasks s now₁ timeout fs).2.1, 0) := by
  obtain ⟨c₂, hcache, hret⟩ := getOpenTasks_returns_cache s now₁ timeout fs
  have hcc : c₂ = c := by
    rw [hcache] at h₁
    injection h₁
  subst hcc
  rw [getOpenTasks_fast (getOpenTasks s now₁ timeout fs).2.1 c₂ now₂ timeout fs hcache h₂, hret]

/-- C6: witness on a one-file tree: the first call at time 0 scans, the
second call at time 10 with a 30 unit window returns the same list and
state with zero reads. -/
theorem getOpenTasks_cached_idempotent_witness :
    getOpenTasks (getOpenTasks exStateC6 0 30 exFsC6).2.1 10 30 exFsC6 =
      ((getOpenTasks exStateC6 0 30 exFsC6).1, (getOpenTasks exStateC6 0 30 exFsC6).2.1, 0) :=
  getOpenTasks_cached_idempotent exStateC6 0 10 30 exFsC6 exCacheC6 (by decide) (by decide)

/-- C8: a file whose read fails during a reconciliation pass contributes
zero tasks and leaves every other file unaffected: getOpenTasks on a
tree with the broken file returns exactly the same task list, scanner
state and read count as on the tree without it, whatever the prior
state; the error is caught inside the per-file scan and never escapes
the call. -/
theorem broken_file_isolated (s : ScannerState) (now timeout : Nat)
    (pre post : FileSys) (f : String) :
    getOpenTasks s now timeout (pre ++ (f, FileEntry.broken) :: post) =
      getOpenTasks s now timeout (pre ++ post) := by
  have hrec : ∀ (c : TaskCache) (acc : List Task) (reads : Nat) (pre₂ : FileSys),
      reconcileAux c (pre₂ ++ (f, FileEntry.broken) :: post) acc reads =
        reconcileAux c (pre₂ ++ post) acc reads := by
    intro c acc reads pre₂
    induction pre₂ generalizing c acc reads with
    | nil =>
      rw [List.nil_append, List.nil_append, reconcileAux_cons]
      show reconcileAux c post (acc ++ []) (reads + 0) = _
      rw [List.append_nil, Nat.add_zero]
    | cons pr rest ih =>
      obtain ⟨fp, entry⟩ := pr
      rw [List.cons_append, List.cons_append, reconcileAux_cons, reconcileAux_cons]
      exact ih _ _ _
  have hpass : runScanPass s now (pre ++ (f, FileEntry.broken) :: post) =
      runScanPass s now (pre ++ post) := by
    simp only [runScanPass, hrec]
  cases hs : s.cache with
  | none =>
    rw [getOpenTasks_scan_eq _ _ _ _ (fun c hc => absurd (hs ▸ hc) (by simp)),
      getOpenTasks_scan_eq _ _ _ _ (fun c hc => absurd (hs ▸ hc) (by simp)), hpass]
  | some c₀ =>
    by_cases hfr : now - c₀.lastScanTime < timeout
    · rw [getOpenTasks_fast s c₀ now timeout _ hs hfr, getOpenTasks_fast s c₀ now timeout _ hs hfr]
    · rw [getOpenTasks_scan_eq _ _ _ _ (fun c hc => by rw [hs] at hc; injection hc with h₂; rw [← h₂]; exact hfr),
        getOpenTasks_scan_eq _ _ _ _ (fun c hc => by rw [hs] at hc; injection hc with h₂; rw [← h₂]; exact hfr), hpass]

/-! ## Lemmas about the decimal printer and the wire-format round trip -/

theorem digitsVal_append_singleton (xs : List Char) (c : Char) :
    digitsVal (xs ++ [c]) = digitsVal xs * 10 + (c.toNat - 48) := by
  unfold digitsVal
  rw [List.foldl_append]
  rfl

theorem digitChar_toNat (r : Nat) (h : r < 10) : (Nat.digitChar r).toNat = 48 + r := by
  interval_cases r <;> rfl

theorem digitChar_isDigit (r : Nat) (h : r < 10) : isDigitChar (Nat.digitChar r) = true := by
  interval_cases r <;> decide

theorem digitsVal_natToDigitsFuel (fuel : Nat) :
    ∀ n : Nat, n < fuel → digitsVal (natToDigitsFuel fuel n) = n := by
  induction fuel with
  | zero => intro n h; omega
  | succ fuel ih =>
    intro n h
    rw [natToDigitsFuel]
    by_cases h10 : n < 10
    · rw [if_pos h10]
      unfold digitsVal
      simp [List.foldl_cons, digitChar_toNat n h10]
    · rw [if_neg h10]
      rw [digitsVal_append_singleton, ih (n / 10) (by omega), digitChar_toNat (n % 10) (by omega)]
      omega

theorem natToDigitsFuel_all (fuel : Nat) :
    ∀ n : Nat, n < fuel → (natToDigitsFuel fuel n).all isDigitChar = true := by
  induction fuel with
  | zero => intro n h; omega
  | succ fuel ih =>
    intro n h
    rw [natToDigitsFuel]
    by_cases h10 : n < 10
    · rw [if_pos h10]
      simp [digitChar_isDigit n h10]
    · rw [if_neg h10]
      rw [List.all_append]
      simp [ih (n / 10) (by omega), digitChar_isDigit (n % 10) (by omega)]

theorem natToDigitsFuel_ne_nil (fuel : Nat) :
    ∀ n : Nat, n < fuel → natToDigitsFuel fuel n ≠ [] := by
  induction fuel with
  | zero => intro n h; omega
  | succ fuel _ =>
    intro n _
    rw [natToDigitsFuel]
    by_cases h10 : n < 10
    · rw [if_pos h10]; simp
    · rw [if_neg h10]; simp

theorem digitsVal_natToDigits (n : Nat) : digitsVal (natToDigits n) = n :=
  digitsVal_natToDigitsFuel (n + 1) n (Nat.lt_succ_self n)

theorem natToDigits_all (n : Nat) : (natToDigits n).all isDigitChar = true :=
  natToDigitsFuel_all (n + 1) n (Nat.lt_succ_self n)

theorem natToDigits_ne_nil (n : Nat) : natToDigits n ≠ [] :=
  natToDigitsFuel_ne_nil (n + 1) n (Nat.lt_succ_self n)

/-- C4: counterexample.  Emitting the wire format for state ROLLED and
parsing the result yields no task at all (the parser deliberately
ignores rolled lines), so the round trip cannot return the emitted
fields for that state. -/
theorem parse_emit_rolled_counterexample :
    parseTask exRolledLineC4 exFpC4 0 = none ∧
    exRolledLineC4 = "-=ROLLED 1 1 240101=-x" :=
  ⟨by decide, by decide⟩

/-- C4 (amended): the parse of an emitted wire-format line returns
exactly the emitted fields for the states the parser handles, TODO and
COMPLETE, for every nonnegative integer priority and difficulty, every
nonempty digit-string date, and every trimmed description text that
embeds no TODO marker occurrence; for state ROLLED the parse returns no
task. -/
theorem parse_emit_roundtrip_todo_complete
    (st : TaskStatus) (p d : Nat) (dt text : List Char) (fp : String) (ln : Int)
    (hdt : dt.all isDigitChar = true) (hdtne : dt ≠ [])
    (htext : trimChars text = text)
    (h1 : containsSeq (markerLit todoChars) text = false)
    (h2 : ('=' :: (todoChars ++ [' '])).isPrefixOf text = false) :
    parseTask (emitTask (stChars st) p d dt text).asString fp ln =
      some ⟨text.asString, p, d, dt.asString, fp, ln, st⟩ := by
  cases st with
  | TODO =>
    have hemit : emitTask (stChars TaskStatus.TODO) p d dt text =
        markerLit todoChars ++
          (natToDigits p ++ (' ' :: (natToDigits d ++ (' ' :: (dt ++ ('=' :: ('-' :: text))))))) := by
      simp [emitTask, stChars]
    unfold parseTask
    rw [show ((emitTask (stChars TaskStatus.TODO) p d dt text).asString).data =
      emitTask (stChars TaskStatus.TODO) p d dt text from rfl]
    rw [hemit]
    rw [findMarker_self _ _ _ (matchFields_exact _ _ _ _
      (natToDigits_all p) (natToDigits_ne_nil p) (natToDigits_all d) (natToDigits_ne_nil d)
      hdt hdtne)]
    simp only [htext, digitsVal_natToDigits]
  | COMPLETE =>
    have hemit : emitTask (stChars TaskStatus.COMPLETE) p d dt text =
        markerLit completeChars ++
          (natToDigits p ++ (' ' :: (natToDigits d ++ (' ' :: (dt ++ ('=' :: ('-' :: text))))))) := by
      simp [emitTask, stChars]
    unfold parseTask
    rw [show ((emitTask (stChars TaskStatus.COMPLETE) p d dt text).asString).data =
      emitTask (stChars TaskStatus.COMPLETE) p d dt text from rfl]
    rw [hemit]
    rw [findMarker_todo_on_complete_line (natToDigits p) (natToDigits d) dt text
      (natToDigits_all p) (natToDigits_all d) hdt h1 h2]
    rw [findMarker_self _ _ _ (matchFields_exact _ _ _ _
      (natToDigits_all p) (natToDigits_ne_nil p) (natToDigits_all d) (natToDigits_ne_nil d)
      hdt hdtne)]
    simp only [htext, digitsVal_natToDigits]

/-- C4: witness instantiating the round trip at COMPLETE state with the
spec example fields. -/
theorem parse_emit_roundtrip_witness :
    parseTask (emitTask (stChars TaskStatus.COMPLETE) 2 3 ['2', '4', '0', '1', '0', '1']
        ['w', 'r', 'i', 't', 'e'] ).asString exFpC4 4 =
      some ⟨(['w', 'r', 'i', 't', 'e'] : List Char).asString, 2, 3,
        (['2', '4', '0', '1', '0', '1'] : List Char).asString, exFpC4, 4, TaskStatus.COMPLETE⟩ :=
  parse_emit_roundtrip_todo_complete TaskStatus.COMPLETE 2 3 ['2', '4', '0', '1', '0', '1']
    ['w', 'r', 'i', 't', 'e'] exFpC4 4 (by decide) (by decide) (by decide) (by decide) (by decide)

/-! ## Characterization of when the parser returns no task -/

theorem matchFields_some_decomp (cs p d dt text : List Char)
    (h : matchFields cs = some (p, d, dt, text)) :
    cs = p ++ (' ' :: (d ++ (' ' :: (dt ++ ('=' :: ('-' :: text)))))) ∧
    p ≠ [] ∧ d ≠ [] ∧ dt ≠ [] ∧
    p.all isDigitChar = true ∧ d.all isDigitChar = true ∧ dt.all isDigitChar = true := by
  simp only [matchFields] at h
  split at h
  · exact absurd h (by simp)
  · next hp =>
    split at h
    · next r2 heq1 =>
      split at h
      · exact absurd h (by simp)
      · next hd =>
        split at h
        · next r4 heq2 =>
          split at h
          · exact absurd h (by simp)
          · next hdt2 =>
            split at h
            · next text₂ heq3 =>
              injection h with h₂
              have hp₂ : List.takeWhile isDigitChar cs = p := congrArg Prod.fst h₂
              have hq₂ := congrArg Prod.snd h₂
              have hd₂ : List.takeWhile isDigitChar r2 = d := congrArg Prod.fst hq₂
              have hq₃ := congrArg Prod.snd hq₂
              have hdt₃ : List.takeWhile isDigitChar r4 = dt := congrArg Prod.fst hq₃
              have htx : text₂ = text := congrArg Prod.snd hq₃
              subst hp₂
              subst hd₂
              subst hdt₃
              subst htx
              have e1 : cs = List.takeWhile isDigitChar cs ++ (' ' :: r2) := by
                conv_lhs => rw [← List.takeWhile_append_dropWhile isDigitChar cs]
                rw [heq1]
              have e2 : r2 = List.takeWhile isDigitChar r2 ++ (' ' :: r4) := by
                conv_lhs => rw [← List.takeWhile_append_dropWhile isDigitChar r2]
                rw [heq2]
              have e3 : r4 = List.takeWhile isDigitChar r4 ++ ('=' :: ('-' :: text₂)) := by
                conv_lhs => rw [← List.takeWhile_append_dropWhile isDigitChar r4]
                rw [heq3]
              refine ⟨?_, hp, hd, hdt2, List.all_takeWhile, List.all_takeWhile, List.all_takeWhile⟩
              conv_lhs => rw [e1, e2, e3]
            · exact absurd h (by simp)
        · exact absurd h (by simp)
    · exact absurd h (by simp)

theorem findMarker_ne_none_of_markerMatch (kw cs : List Char) (h : MarkerMatch kw cs) :
    findMarker kw cs ≠ none := by
  obtain ⟨pre, p, d, dt, text, heq, hpne, hdne, hdtne, hp, hd, hdt⟩ := h
  subst heq
  induction pre with
  | nil =>
    rw [List.nil_append]
    have hb : markerLit kw ++ p ++ ' ' :: d ++ ' ' :: (dt ++ '=' :: '-' :: text) =
        markerLit kw ++ (p ++ (' ' :: (d ++ (' ' :: (dt ++ ('=' :: ('-' :: text))))))) := by
      simp
    rw [hb, findMarker_self _ _ _ (matchFields_exact p d dt text hp hpne hd hdne hdt hdtne)]
    simp
  | cons a pre ih =>
    have hsh : a :: pre ++ markerLit kw ++ p ++ ' ' :: d ++ ' ' :: (dt ++ '=' :: '-' :: text) =
        a :: (pre ++ markerLit kw ++ p ++ ' ' :: d ++ ' ' :: (dt ++ '=' :: '-' :: text)) := by
      simp
    rw [hsh, findMarker_cons]
    cases hm : matchAt kw
        (a :: (pre ++ markerLit kw ++ p ++ ' ' :: d ++ ' ' :: (dt ++ '=' :: '-' :: text))) with
    | some r => simp
    | none => simpa using ih

theorem markerMatch_of_findMarker_some (kw cs : List Char)
    (r : List Char × List Char × List Char × List Char) (h : findMarker kw cs = some r) :
    MarkerMatch kw cs := by
  induction cs with
  | nil => exact absurd h (by simp [findMarker])
  | cons c cs ih =>
    rw [findMarker_cons] at h
    cases hm : matchAt kw (c :: cs) with
    | some r₂ =>
      unfold matchAt at hm
      split at hm
      · next hpre =>
        have hsplit : c :: cs = markerLit kw ++ (c :: cs).drop (markerLit kw).length := by
          rcases List.isPrefixOf_iff_prefix.mp hpre with ⟨tail, htail⟩
          rw [← htail, List.drop_left]
        obtain ⟨p, d, dt, text⟩ := r₂
        obtain ⟨he, hpne, hdne, hdtne, hpa, hda, hdta⟩ :=
          matchFields_some_decomp _ p d dt text hm
        refine ⟨[], p, d, dt, text, ?_, hpne, hdne, hdtne, hpa, hda, hdta⟩
        rw [List.nil_append, hsplit, he]
        simp
      · exact absurd hm (by simp)
    | none =>
      rw [hm] at h
      simp only at h
      obtain ⟨pre, p, d, dt, text, he, h₁, h₂, h₃, h₄, h₅, h₆⟩ := ih h
      refine ⟨c :: pre, p, d, dt, text, ?_, h₁, h₂, h₃, h₄, h₅, h₆⟩
      rw [he]
      simp

/-- C5: counterexample.  The line with a five-digit date does not match
the strict grammar of the claim (state literal, digit fields, date of
exactly six digits, marker at line start), yet parseTask returns a task
for it rather than no task: the implemented date group accepts any
nonempty digit run. -/
theorem parse_lenient_date_counterexample :
    specGrammarExact exLineC5 = false ∧ parseTask exLineC5 exFpC5 0 = some tC5 :=
  ⟨by decide, by decide⟩

/-- C5 (amended): parseTask returns no task exactly for the lines in
which neither the TODO nor the COMPLETE marker pattern occurs anywhere —
the keyword literal followed by three nonempty digit runs separated by
single spaces and closed by the equals-dash delimiter, with the date
being any nonempty digit run (not necessarily six digits) and the
marker allowed anywhere in the line (not only at its start); the parser
is a total function, so it never throws. -/
theorem parseTask_none_iff (line : String) (fp : String) (ln : Int) :
    parseTask line fp ln = none ↔
      ¬ MarkerMatch todoChars line.data ∧ ¬ MarkerMatch completeChars line.data := by
  constructor
  · intro h
    unfold parseTask at h
    cases h₁ : findMarker todoChars line.data with
    | some r => rw [h₁] at h; exact absurd h (by simp)
    | none =>
      cases h₂ : findMarker completeChars line.data with
      | some r => rw [h₁, h₂] at h; exact absurd h (by simp)
      | none =>
        exact ⟨fun hm => findMarker_ne_none_of_markerMatch _ _ hm h₁,
          fun hm => findMarker_ne_none_of_markerMatch _ _ hm h₂⟩
  · intro hm
    unfold parseTask
    cases h₁ : findMarker todoChars line.data with
    | some r => exact absurd (markerMatch_of_findMarker_some _ _ r h₁) hm.1
    | none =>
      cases h₂ : findMarker completeChars line.data with
      | some r => exact absurd (markerMatch_of_findMarker_some _ _ r h₂) hm.2
      | none => rfl
end Calmdown
